import Mathlib

/-!
Shallow embedding of the link-tracking server in `src/index.js`.

Modelling conventions:
- Timestamps are integers (milliseconds since epoch, as JavaScript `Date`
  arithmetic). A request handler receives its clock reading `now` as an
  explicit parameter; the several `new Date()` calls inside one handler are
  identified (the configured precision of the spec).
- The Firebase realtime database under the path `links/` is an association
  list from link id to `Link` record; `db.ref('links/' + id).set(v)`
  overwrites the entry at `id` (or appends a fresh one), and
  `linkRef.update({...})` overwrites the listed fields of the record, which
  the handler only calls after an existence check.
- JavaScript numeric inputs (`expiresInHours` from the JSON body) are
  modelled by `JSNum`: an exact rational for finite doubles, plus NaN and
  the two infinities, with the coercing `isNaN` test and `< 1` comparison
  of the source. `parseInt` converts its argument to the default string
  form first: a finite number at least 1 and below 1e21 prints in decimal
  form, so `parseInt` returns its integer part, while a number at 1e21 or
  above prints in exponential form and `parseInt` stops at the first
  non-digit of "d.ddd...e+NN", returning the single leading digit;
  `parseInt(Infinity)` is NaN. ECMAScript Dates are valid only within
  8.64e15 ms of the epoch: when the computed expiry falls outside that
  range (a NaN hour count, or a finite hour count pushing the time value
  past the range), `toISOString()` on the invalid date throws and the
  handler's try/catch answers a 500 internal error before anything is
  stored.
- `uniqueClicks / clicks * 100` and `toFixed(2)` are computed in exact
  rational arithmetic; `toFixed(2)` for a non-negative value rounds to the
  nearest hundredth, ties upward, per the ECMAScript definition.
-/

/-- A finite JavaScript number (exact rational), NaN, or an infinity. -/
inductive JSNum where
  | num (q : ℚ)
  | nan
  | inf
  | negInf
deriving DecidableEq

/-- JavaScript global `isNaN` on a number value. -/
def jsIsNaN : JSNum → Bool
  | .nan => true
  | _ => false

/-- JavaScript comparison `x < 1` on a number value (`NaN < 1` is false). -/
def jsLtOne : JSNum → Bool
  | .num q => decide (q < 1)
  | .nan => false
  | .inf => false
  | .negInf => true

/-- The integer JavaScript `parseInt` extracts from the default string
rendering of a finite number, on the path where the value already passed the
`expiresInHours < 1` guard (so it is at least 1): values below 1e21 print in
decimal form and `parseInt` reads their integer part (the floor, as the
value is positive); values at 1e21 and above print in exponential form
"d.ddd...e+NN", where `parseInt` stops at the first non-digit and returns
the single leading digit. -/
def parseIntNum (q : ℚ) : ℤ :=
  if q < 10 ^ 21 then ⌊q⌋ else ⌊q⌋ / (10 : ℤ) ^ Nat.log 10 ⌊q⌋.toNat

/-- JavaScript `parseInt` applied to a number value. `parseInt(Infinity)`
and `parseInt(-Infinity)` read the strings "Infinity" / "-Infinity" and are
NaN, modelled as `none`. -/
def jsParseInt : JSNum → Option ℤ
  | .num q => some (parseIntNum q)
  | .nan => none
  | .inf => none
  | .negInf => none

/-- The ECMAScript Date range: a time value farther than 8.64e15 ms from
the epoch makes the Date invalid, and `toISOString()` on it throws. -/
def maxDateMs : ℤ := 8640000000000000

/-- The stored record at `links/{id}` (src/index.js lines 48-56 and 97-103).
`clickers` is `Option` because Firebase serves a record whose clickers array
is empty or was never written as having no such field; the tracking handler
reads it as `linkData.clickers || []`. `lastAccessed` is absent until the
first click. -/
structure Link where
  id : String
  created : ℤ
  expires : ℤ
  clicks : ℕ
  uniqueClicks : ℕ
  clickers : Option (List String)
  campaign : String
  lastAccessed : Option ℤ
deriving DecidableEq

/-- The `links/` subtree of the database: an association list keyed by id. -/
abbrev Store := List (String × Link)

/-- Fetching `links/{id}`: `snapshot.exists()` and `snapshot.val()`. -/
def lookupId : Store → String → Option Link
  | [], _ => none
  | (k, v) :: rest, i => if k = i then some v else lookupId rest i

/-- `db.ref('links/' + id).set(record)` / `linkRef.update(...)`: overwrite
the record stored at `id`, appending a fresh entry if `id` is absent. -/
def setEntry : Store → String → Link → Store
  | [], i, l => [(i, l)]
  | (k, v) :: rest, i, l => if k = i then (i, l) :: rest else (k, v) :: setEntry rest i l

/-- Errors of the create handler (`POST /api/links`): the 400 response for a
rejected `expiresInHours`, and the 500 response of the catch block. -/
inductive CreateError where
  | invalidInput
  | internalError
deriving DecidableEq

/-- Errors of the tracking handler (`GET /track/:linkId`): 404 for an
unknown id, 410 for an expired link. -/
inductive TrackError where
  | notFound
  | linkExpired
deriving DecidableEq

/-- The create handler `POST /api/links` (src/index.js lines 36-69).
`linkId` stands for the freshly generated `uuidv4().split('-')[0]`, passed
in because randomness is external to the model. Validation rejects
`expiresInHours` with 400 when `isNaN(expiresInHours) || expiresInHours < 1`;
otherwise `expires` is `created` plus `parseInt(expiresInHours)` hours, and
the record is written with an unconditional `set` (no duplicate check). When
`parseInt` yields NaN (infinite input), or the computed expiry time value
falls outside the 8.64e15 ms Date range, `expiresAt.toISOString()` throws on
the invalid date before the write and the catch block answers 500, storing
nothing. -/
def createLink (store : Store) (linkId : String) (expiresInHours : JSNum)
    (campaign : String) (now : ℤ) : Except CreateError Store :=
  if jsIsNaN expiresInHours || jsLtOne expiresInHours then
    .error .invalidInput
  else
    match jsParseInt expiresInHours with
    | none => .error .internalError
    | some n =>
        let expires := now + n * 3600000
        if maxDateMs < |expires| then
          .error .internalError
        else
          .ok (setEntry store linkId
            { id := linkId
              created := now
              expires := expires
              clicks := 0
              uniqueClicks := 0
              clickers := some []
              campaign := campaign
              lastAccessed := none })

/-- JavaScript `campaign || linkData.campaign` for the query-string campaign:
an absent campaign and the empty string are falsy and keep the stored one. -/
def jsOr (campaign : Option String) (stored : String) : String :=
  match campaign with
  | some c => if c = "" then stored else c
  | none => stored

/-- The mutation computed by the tracking handler (src/index.js lines
88-103): increment `clicks`; if the visitor fingerprint is not in
`clickers`, push it and increment `uniqueClicks`; overwrite `campaign` only
with a truthy query value; set `lastAccessed`. -/
def clickUpdate (linkData : Link) (clientId : String) (campaign : Option String)
    (now : ℤ) : Link :=
  let clickers := linkData.clickers.getD []
  if clientId ∈ clickers then
    { linkData with
        clicks := linkData.clicks + 1
        clickers := some clickers
        campaign := jsOr campaign linkData.campaign
        lastAccessed := some now }
  else
    { linkData with
        clicks := linkData.clicks + 1
        uniqueClicks := linkData.uniqueClicks + 1
        clickers := some (clickers ++ [clientId])
        campaign := jsOr campaign linkData.campaign
        lastAccessed := some now }

/-- The tracking handler `GET /track/:linkId` (src/index.js lines 72-110):
404 when the snapshot does not exist, 410 when `new Date() > expires`,
otherwise persist `clickUpdate` via `linkRef.update`. -/
def recordClick (store : Store) (linkId clientId : String)
    (campaign : Option String) (now : ℤ) : Except TrackError Store :=
  match lookupId store linkId with
  | none => .error .notFound
  | some linkData =>
      if linkData.expires < now then
        .error .linkExpired
      else
        .ok (setEntry store linkId (clickUpdate linkData clientId campaign now))

/-- ECMAScript `toFixed(2)` on a non-negative exact value: round to the
nearest hundredth, ties toward the larger integer, then print with exactly
two digits after the point. -/
def toFixed2 (q : ℚ) : String :=
  let n : ℤ := ⌊q * 100 + 1 / 2⌋
  let whole := n / 100
  let frac := (n % 100).toNat
  toString whole ++ "." ++ (if frac < 10 then "0" else "") ++ toString frac

/-- The JSON body produced by the stats handler `GET /api/links/:linkId`
(src/index.js lines 126-137). -/
structure StatsView where
  id : String
  clicks : ℕ
  uniqueClicks : ℕ
  created : ℤ
  expires : ℤ
  isActive : Bool
  campaign : String
  lastAccessed : Option ℤ
  timeRemaining : String
  clickThroughRate : String
deriving DecidableEq

/-- The stats handler `GET /api/links/:linkId` (src/index.js lines
113-142): a pure read. `timeRemaining` is `max(0, expires - now)` split
into whole hours and whole minutes; `clickThroughRate` is
`(uniqueClicks / clicks * 100).toFixed(2) + '%'` guarded by `clicks > 0`. -/
def getStats (store : Store) (linkId : String) (now : ℤ) : Option StatsView :=
  match lookupId store linkId with
  | none => none
  | some linkData =>
      let timeRemaining := max 0 (linkData.expires - now)
      some
        { id := linkData.id
          clicks := linkData.clicks
          uniqueClicks := linkData.uniqueClicks
          created := linkData.created
          expires := linkData.expires
          isActive := decide (now < linkData.expires)
          campaign := linkData.campaign
          lastAccessed := linkData.lastAccessed
          timeRemaining := toString (timeRemaining / 3600000) ++ " hours " ++
            toString (timeRemaining % 3600000 / 60000) ++ " minutes"
          clickThroughRate :=
            if linkData.clicks > 0 then
              toFixed2 ((linkData.uniqueClicks : ℚ) / (linkData.clicks : ℚ) * 100) ++ "%"
            else "0%" }

/-- One row of the listing handler `GET /api/links` (src/index.js lines
150-158). -/
structure LinkSummary where
  id : String
  created : ℤ
  expires : ℤ
  clicks : ℕ
  uniqueClicks : ℕ
  campaign : String
  isActive : Bool
deriving DecidableEq

/-- The listing handler `GET /api/links` (src/index.js lines 145-169): a
pure read returning the count, the active count, and the projected rows. -/
def listAll (store : Store) (now : ℤ) : ℕ × ℕ × List LinkSummary :=
  let links := store.map (fun p =>
    { id := p.2.id
      created := p.2.created
      expires := p.2.expires
      clicks := p.2.clicks
      uniqueClicks := p.2.uniqueClicks
      campaign := p.2.campaign
      isActive := decide (now < p.2.expires) : LinkSummary })
  (links.length, (links.filter (fun l => l.isActive)).length, links)

/-- One inbound request against the service, with its clock reading. -/
inductive Op where
  | create (linkId : String) (expiresInHours : JSNum) (campaign : String) (now : ℤ)
  | track (linkId clientId : String) (campaign : Option String) (now : ℤ)
  | stats (linkId : String) (now : ℤ)
  | listAll (now : ℤ)

/-- The store after handling one request: a handler that answers an error
response has not written anything, and the two read handlers never write. -/
def applyOp (store : Store) : Op → Store
  | .create linkId h campaign now =>
      match createLink store linkId h campaign now with
      | .ok s => s
      | .error _ => store
  | .track linkId clientId campaign now =>
      match recordClick store linkId clientId campaign now with
      | .ok s => s
      | .error _ => store
  | .stats _ _ => store
  | .listAll _ => store

/-- Sequential application of one tracking request per fingerprint in the
list, all against the same link id and at the same clock reading. -/
def trackSeq (store : Store) (linkId : String) (now : ℤ) : List String → Store
  | [] => store
  | fp :: rest => trackSeq (applyOp store (.track linkId fp none now)) linkId now rest

/-! ## Basic lemmas about the store -/

theorem lookupId_setEntry_self (store : Store) (i : String) (l : Link) :
    lookupId (setEntry store i l) i = some l := by
  induction store with
  | nil => simp [setEntry, lookupId]
  | cons p rest ih =>
      obtain ⟨k, v⟩ := p
      by_cases hk : k = i
      · simp [setEntry, hk, lookupId]
      · simp [setEntry, hk, lookupId, ih]

theorem lookupId_setEntry_ne (store : Store) (i j : String) (l : Link)
    (h : j ≠ i) : lookupId (setEntry store i l) j = lookupId store j := by
  induction store with
  | nil => simp [setEntry, lookupId, Ne.symm h]
  | cons p rest ih =>
      obtain ⟨k, v⟩ := p
      by_cases hk : k = i
      · subst hk
        simp [setEntry, lookupId, Ne.symm h]
      · simp [setEntry, hk, lookupId, ih]

theorem mem_setEntry (store : Store) (i : String) (l : Link) (p : String × Link)
    (hp : p ∈ setEntry store i l) : p = (i, l) ∨ p ∈ store := by
  induction store with
  | nil => simpa [setEntry] using hp
  | cons q rest ih =>
      obtain ⟨k, v⟩ := q
      by_cases hk : k = i
      · subst hk
        simp only [setEntry, if_true, List.mem_cons] at hp
        rcases hp with h1 | h1
        · exact Or.inl h1
        · exact Or.inr (List.mem_cons_of_mem _ h1)
      · simp only [setEntry, hk, if_false, List.mem_cons] at hp
        rcases hp with h1 | h1
        · exact Or.inr (by simp [h1])
        · rcases ih h1 with h2 | h2
          · exact Or.inl h2
          · exact Or.inr (List.mem_cons_of_mem _ h2)

/-! ## Sample records for concrete instantiations -/

/-- A stored link past its expiry, used to instantiate the expiry theorems. -/
def expiredSample : Link :=
  { id := "a", created := 0, expires := 5, clicks := 3, uniqueClicks := 2,
    clickers := some ["x", "y"], campaign := "ads", lastAccessed := some 4 }

/-- A freshly created link, used to instantiate the accounting theorems. -/
def freshSample : Link :=
  { id := "b", created := 0, expires := 3600000, clicks := 0, uniqueClicks := 0,
    clickers := some [], campaign := "default", lastAccessed := none }

/-- A stored link whose clickers field is absent, as Firebase serves a record
written with an empty clickers array. -/
def noClickersSample : Link :=
  { id := "c", created := 0, expires := 3600000, clicks := 0, uniqueClicks := 0,
    clickers := none, campaign := "default", lastAccessed := none }

/-! ## Claim theorems -/

/-- C2: clicking a link strictly after its expiry timestamp is rejected with
`LinkExpired` and leaves the store — hence every stored field of every
record — unchanged. -/
theorem recordClick_expired_rejected (store : Store) (linkId clientId : String)
    (campaign : Option String) (now : ℤ) (link : Link)
    (hfound : lookupId store linkId = some link) (hexp : link.expires < now) :
    recordClick store linkId clientId campaign now = Except.error TrackError.linkExpired ∧
    applyOp store (Op.track linkId clientId campaign now) = store := by
  constructor
  · simp [recordClick, hfound, hexp]
  · simp [applyOp, recordClick, hfound, hexp]

/-- Witness for C2 at a concrete expired link. -/
theorem recordClick_expired_rejected_witness :
    lookupId [("a", expiredSample)] "a" = some expiredSample ∧
    expiredSample.expires < 10 ∧
    (recordClick [("a", expiredSample)] "a" "fp" none 10 = Except.error TrackError.linkExpired ∧
     applyOp [("a", expiredSample)] (Op.track "a" "fp" none 10) = [("a", expiredSample)]) :=
  ⟨rfl, by decide, recordClick_expired_rejected _ _ _ _ _ _ rfl (by decide)⟩

/-- C7: a successful tracking call overwrites the stored campaign exactly
when the supplied campaign is present and non-empty; an absent or empty
campaign keeps the stored one. -/
theorem recordClick_campaign (store : Store) (linkId clientId : String)
    (campaign : Option String) (now : ℤ) (link : Link) (store' : Store)
    (hfound : lookupId store linkId = some link)
    (hok : recordClick store linkId clientId campaign now = Except.ok store') :
    ∃ link', lookupId store' linkId = some link' ∧
      link'.campaign = (match campaign with
        | some c => if c = "" then link.campaign else c
        | none => link.campaign) := by
  simp only [recordClick, hfound] at hok
  by_cases hexp : link.expires < now
  · simp [hexp] at hok
  · simp only [if_neg hexp, Except.ok.injEq] at hok
    subst hok
    refine ⟨clickUpdate link clientId campaign now, lookupId_setEntry_self _ _ _, ?_⟩
    cases campaign with
    | none =>
        by_cases hm : clientId ∈ link.clickers.getD [] <;> simp [clickUpdate, jsOr, hm]
    | some c =>
        by_cases hm : clientId ∈ link.clickers.getD [] <;> simp [clickUpdate, jsOr, hm]

/-- Witness for C7 at a concrete link and a non-empty campaign. -/
theorem recordClick_campaign_witness :
    lookupId [("b", freshSample)] "b" = some freshSample ∧
    recordClick [("b", freshSample)] "b" "fp" (some "promo") 100 =
      Except.ok [("b", clickUpdate freshSample "fp" (some "promo") 100)] ∧
    (∃ link', lookupId [("b", clickUpdate freshSample "fp" (some "promo") 100)] "b" =
        some link' ∧
      link'.campaign = "promo") :=
  ⟨rfl, rfl,
    recordClick_campaign [("b", freshSample)] "b" "fp" (some "promo") 100 freshSample
      [("b", clickUpdate freshSample "fp" (some "promo") 100)] rfl rfl⟩

/-- C9: a stats query on a known id succeeds, performs no mutation of the
store, reports the stored counters and fields, and reports the link inactive
when the query happens after expiry. -/
theorem getStats_no_mutation (store : Store) (linkId : String) (now : ℤ) (link : Link)
    (hfound : lookupId store linkId = some link) :
    applyOp store (Op.stats linkId now) = store ∧
    ∃ view, getStats store linkId now = some view ∧
      view.clicks = link.clicks ∧ view.uniqueClicks = link.uniqueClicks ∧
      view.created = link.created ∧ view.expires = link.expires ∧
      view.campaign = link.campaign ∧ view.lastAccessed = link.lastAccessed ∧
      (link.expires < now → view.isActive = false) := by
  refine ⟨rfl, ?_⟩
  simp only [getStats, hfound]
  refine ⟨_, rfl, rfl, rfl, rfl, rfl, rfl, rfl, fun h => ?_⟩
  simp only [decide_eq_false_iff_not, not_lt]
  omega

/-- Witness for C9 at a concrete expired link. -/
theorem getStats_no_mutation_witness :
    lookupId [("s", expiredSample)] "s" = some expiredSample ∧
    (applyOp [("s", expiredSample)] (Op.stats "s" 10) = [("s", expiredSample)] ∧
     ∃ view, getStats [("s", expiredSample)] "s" 10 = some view ∧
       view.clicks = expiredSample.clicks ∧
       view.uniqueClicks = expiredSample.uniqueClicks ∧
       view.created = expiredSample.created ∧ view.expires = expiredSample.expires ∧
       view.campaign = expiredSample.campaign ∧
       view.lastAccessed = expiredSample.lastAccessed ∧
       (expiredSample.expires < 10 → view.isActive = false)) :=
  ⟨rfl, getStats_no_mutation _ _ _ _ rfl⟩

/-- C10: a record with an absent clickers field is clicked as though the set
were empty: the click succeeds, both counters increment, and the stored
clickers collection afterwards is exactly the one visitor fingerprint. -/
theorem recordClick_missing_clickers (store : Store) (linkId clientId : String)
    (now : ℤ) (link : Link)
    (hfound : lookupId store linkId = some link) (hcl : link.clickers = none)
    (hexp : ¬ link.expires < now) :
    ∃ store', recordClick store linkId clientId none now = Except.ok store' ∧
      ∃ link', lookupId store' linkId = some link' ∧
        link'.clicks = link.clicks + 1 ∧
        link'.uniqueClicks = link.uniqueClicks + 1 ∧
        link'.clickers = some [clientId] := by
  refine ⟨setEntry store linkId (clickUpdate link clientId none now), ?_, ?_⟩
  · simp [recordClick, hfound, hexp]
  · refine ⟨clickUpdate link clientId none now, lookupId_setEntry_self _ _ _, ?_⟩
    simp [clickUpdate, hcl]

/-- Witness for C10 at a concrete record with no clickers field. -/
theorem recordClick_missing_clickers_witness :
    lookupId [("c", noClickersSample)] "c" = some noClickersSample ∧
    noClickersSample.clickers = none ∧
    ¬ noClickersSample.expires < 100 ∧
    (∃ store', recordClick [("c", noClickersSample)] "c" "fp" none 100 = Except.ok store' ∧
      ∃ link', lookupId store' "c" = some link' ∧
        link'.clicks = noClickersSample.clicks + 1 ∧
        link'.uniqueClicks = noClickersSample.uniqueClicks + 1 ∧
        link'.clickers = some ["fp"]) :=
  ⟨rfl, rfl, by decide,
    recordClick_missing_clickers _ _ _ _ _ rfl rfl (by decide)⟩

/-! ## Field lemmas for the click mutation -/

theorem clickUpdate_expires (l : Link) (c : String) (camp : Option String) (now : ℤ) :
    (clickUpdate l c camp now).expires = l.expires := by
  unfold clickUpdate
  by_cases hm : c ∈ l.clickers.getD [] <;> simp [hm]

theorem clickUpdate_clicks (l : Link) (c : String) (camp : Option String) (now : ℤ) :
    (clickUpdate l c camp now).clicks = l.clicks + 1 := by
  unfold clickUpdate
  by_cases hm : c ∈ l.clickers.getD [] <;> simp [hm]

theorem clickUpdate_of_mem (l : Link) (c : String) (camp : Option String) (now : ℤ)
    (hm : c ∈ l.clickers.getD []) :
    (clickUpdate l c camp now).clickers = some (l.clickers.getD []) ∧
    (clickUpdate l c camp now).uniqueClicks = l.uniqueClicks := by
  unfold clickUpdate
  simp [hm]

theorem clickUpdate_of_not_mem (l : Link) (c : String) (camp : Option String) (now : ℤ)
    (hm : c ∉ l.clickers.getD []) :
    (clickUpdate l c camp now).clickers = some (l.clickers.getD [] ++ [c]) ∧
    (clickUpdate l c camp now).uniqueClicks = l.uniqueClicks + 1 := by
  unfold clickUpdate
  simp [hm]

/-! ## Success-shape lemmas for the two mutating handlers -/

theorem createLink_ok (store : Store) (linkId : String) (h : JSNum) (campaign : String)
    (now : ℤ) (s' : Store) (hok : createLink store linkId h campaign now = Except.ok s') :
    ∃ n, jsParseInt h = some n ∧ |now + n * 3600000| ≤ maxDateMs ∧
      s' = setEntry store linkId
        { id := linkId, created := now, expires := now + n * 3600000, clicks := 0,
          uniqueClicks := 0, clickers := some [], campaign := campaign,
          lastAccessed := none } := by
  unfold createLink at hok
  by_cases hval : (jsIsNaN h || jsLtOne h) = true
  · simp [hval] at hok
  · rw [if_neg (by simpa using hval)] at hok
    cases hp : jsParseInt h with
    | none => simp [hp] at hok
    | some n =>
        simp only [hp] at hok
        by_cases hr : maxDateMs < |now + n * 3600000|
        · rw [if_pos hr] at hok
          exact absurd hok (by simp)
        · rw [if_neg hr] at hok
          simp only [Except.ok.injEq] at hok
          exact ⟨n, rfl, not_lt.mp hr, hok.symm⟩

theorem recordClick_ok (store : Store) (linkId clientId : String)
    (campaign : Option String) (now : ℤ) (s' : Store)
    (hok : recordClick store linkId clientId campaign now = Except.ok s') :
    ∃ link, lookupId store linkId = some link ∧ ¬ link.expires < now ∧
      s' = setEntry store linkId (clickUpdate link clientId campaign now) := by
  unfold recordClick at hok
  cases hf : lookupId store linkId with
  | none => simp [hf] at hok
  | some link =>
      simp only [hf] at hok
      by_cases hexp : link.expires < now
      · simp [hexp] at hok
      · simp only [if_neg hexp, Except.ok.injEq] at hok
        exact ⟨link, rfl, hexp, hok.symm⟩

theorem lookupId_mem (s : Store) (i : String) (l : Link)
    (hf : lookupId s i = some l) : (i, l) ∈ s := by
  induction s with
  | nil => simp [lookupId] at hf
  | cons p rest ih =>
      obtain ⟨k, v⟩ := p
      by_cases hk : k = i
      · subst hk
        simp only [lookupId, if_true, Option.some.injEq] at hf
        subst hf
        exact List.mem_cons_self _ _
      · simp only [lookupId, if_neg hk] at hf
        exact List.mem_cons_of_mem _ (ih hf)

/-! ## The per-record invariant -/

/-- The record-level invariant: unique clicks never exceed total clicks. -/
def invLink (l : Link) : Prop := l.uniqueClicks ≤ l.clicks

/-- The store-level invariant: every stored record satisfies `invLink`. -/
def invStore (s : Store) : Prop := ∀ p ∈ s, invLink p.2

theorem invStore_setEntry (s : Store) (i : String) (l : Link)
    (hs : invStore s) (hl : invLink l) : invStore (setEntry s i l) := by
  intro p hp
  rcases mem_setEntry s i l p hp with h | h
  · rw [h]
    exact hl
  · exact hs p h

theorem invLink_clickUpdate (link : Link) (clientId : String) (campaign : Option String)
    (now : ℤ) (h : invLink link) : invLink (clickUpdate link clientId campaign now) := by
  unfold invLink at h
  unfold invLink clickUpdate
  by_cases hm : clientId ∈ link.clickers.getD [] <;> simp [hm] <;> omega

theorem invStore_applyOp (s : Store) (op : Op) (hs : invStore s) :
    invStore (applyOp s op) := by
  cases op with
  | create linkId h campaign now =>
      simp only [applyOp]
      cases hres : createLink s linkId h campaign now with
      | error e => exact hs
      | ok s' =>
          obtain ⟨n, _, _, hset⟩ := createLink_ok s linkId h campaign now s' hres
          rw [hset]
          exact invStore_setEntry _ _ _ hs (by simp [invLink])
  | track linkId clientId campaign now =>
      simp only [applyOp]
      cases hres : recordClick s linkId clientId campaign now with
      | error e => exact hs
      | ok s' =>
          obtain ⟨link, hf, _, hset⟩ := recordClick_ok s linkId clientId campaign now s' hres
          rw [hset]
          exact invStore_setEntry _ _ _ hs
            (invLink_clickUpdate _ _ _ _ (hs (linkId, link) (lookupId_mem s linkId link hf)))
  | stats linkId now => exact hs
  | listAll now => exact hs

/-- C3: the invariant `uniqueClicks ≤ clicks` holds for every stored record
after every sequence of operations (create, track, stats, list-all) applied
to any starting store satisfying it; the read operations do not touch the
store at all. -/
theorem invariant_uniqueClicks_le_clicks (ops : List Op) (store : Store)
    (hs : invStore store) : invStore (ops.foldl applyOp store) := by
  induction ops generalizing store with
  | nil => exact hs
  | cons op rest ih => exact ih _ (invStore_applyOp _ _ hs)

/-- Witness for C3 on a concrete run: create, three clicks, a stats read and
a listing, starting from the empty store. -/
theorem invariant_uniqueClicks_le_clicks_witness :
    invStore [] ∧
    invStore ([Op.create "a" (JSNum.num 24) "ads" 0,
      Op.track "a" "u" none 5,
      Op.track "a" "u" (some "promo") 6,
      Op.track "a" "v" none 7,
      Op.stats "a" 8,
      Op.listAll 9].foldl applyOp []) :=
  ⟨by simp [invStore], invariant_uniqueClicks_le_clicks _ _ (by simp [invStore])⟩

/-! ## Sequential click accounting -/

theorem trackSeq_accounting (fps : List String) :
    ∀ (store : Store) (linkId : String) (now : ℤ) (link : Link),
    lookupId store linkId = some link → ¬ link.expires < now →
    (link.clickers.getD []).Nodup →
    link.uniqueClicks = (link.clickers.getD []).length →
    ∃ link', lookupId (trackSeq store linkId now fps) linkId = some link' ∧
      link'.expires = link.expires ∧
      link'.clicks = link.clicks + fps.length ∧
      (link'.clickers.getD []).Nodup ∧
      link'.uniqueClicks = (link'.clickers.getD []).length ∧
      (link'.clickers.getD []).toFinset =
        (link.clickers.getD []).toFinset ∪ fps.toFinset := by
  induction fps with
  | nil =>
      intro store linkId now link hf _ hnd hlen
      exact ⟨link, hf, rfl, by simp, hnd, hlen, by simp⟩
  | cons fp rest ih =>
      intro store linkId now link hf hexp hnd hlen
      have hstep : applyOp store (Op.track linkId fp none now)
          = setEntry store linkId (clickUpdate link fp none now) := by
        simp [applyOp, recordClick, hf, hexp]
      have hf1 : lookupId (setEntry store linkId (clickUpdate link fp none now)) linkId
          = some (clickUpdate link fp none now) := lookupId_setEntry_self _ _ _
      have hexp1 : ¬ (clickUpdate link fp none now).expires < now := by
        rw [clickUpdate_expires]
        exact hexp
      by_cases hm : fp ∈ link.clickers.getD []
      · obtain ⟨hcl1, huq1⟩ := clickUpdate_of_mem link fp none now hm
        obtain ⟨link', h1, h2, h3, h4, h5, h6⟩ :=
          ih _ linkId now _ hf1 hexp1 (by rw [hcl1]; simpa using hnd)
            (by rw [huq1, hcl1]; simpa using hlen)
        rw [trackSeq, hstep]
        refine ⟨link', h1, ?_, ?_, h4, h5, ?_⟩
        · rw [h2, clickUpdate_expires]
        · rw [h3, clickUpdate_clicks]
          simp [List.length_cons]
          omega
        · rw [h6, hcl1]
          ext x
          simp only [Option.getD_some, Finset.mem_union, List.toFinset_cons,
            Finset.mem_insert, List.mem_toFinset]
          constructor
          · rintro (hx | hx)
            · exact Or.inl hx
            · exact Or.inr (Or.inr hx)
          · rintro (hx | hx | hx)
            · exact Or.inl hx
            · exact Or.inl (hx ▸ hm)
            · exact Or.inr hx
      · obtain ⟨hcl1, huq1⟩ := clickUpdate_of_not_mem link fp none now hm
        obtain ⟨link', h1, h2, h3, h4, h5, h6⟩ :=
          ih _ linkId now _ hf1 hexp1
            (by rw [hcl1]; simpa [List.nodup_append] using ⟨hnd, fun hx => hm hx⟩)
            (by rw [huq1, hcl1]; simp [hlen])
        rw [trackSeq, hstep]
        refine ⟨link', h1, ?_, ?_, h4, h5, ?_⟩
        · rw [h2, clickUpdate_expires]
        · rw [h3, clickUpdate_clicks]
          simp [List.length_cons]
          omega
        · rw [h6, hcl1]
          ext x
          simp only [Option.getD_some, Finset.mem_union, List.toFinset_append,
            List.toFinset_cons, Finset.mem_insert, List.mem_toFinset,
            List.mem_singleton, List.mem_append, List.toFinset_nil,
            Finset.not_mem_empty, List.not_mem_nil, or_false]
          tauto

/-- C1: starting from a freshly created link (zero counters, empty clicker
set) that is not expired at clock reading `now`, a sequence of N successful
tracking calls whose fingerprints form a list with K distinct values leaves
the stored record with `clicks = N` and `uniqueClicks = K`; the result
depends only on N and K, not on the order of the clicks. -/
theorem trackSeq_counts (store : Store) (linkId : String) (now : ℤ) (link : Link)
    (fps : List String) (N K : ℕ)
    (hf : lookupId store linkId = some link) (hexp : ¬ link.expires < now)
    (hclicks : link.clicks = 0) (huq : link.uniqueClicks = 0)
    (hcl : link.clickers.getD [] = [])
    (hN : fps.length = N) (hK : fps.toFinset.card = K) :
    ∃ link', lookupId (trackSeq store linkId now fps) linkId = some link' ∧
      link'.clicks = N ∧ link'.uniqueClicks = K := by
  obtain ⟨link', h1, _, h3, h4, h5, h6⟩ :=
    trackSeq_accounting fps store linkId now link hf hexp
      (by rw [hcl]; exact List.nodup_nil) (by rw [hcl]; simpa using huq)
  refine ⟨link', h1, by omega, ?_⟩
  rw [h5, ← List.toFinset_card_of_nodup h4, h6, hcl]
  simpa using hK

/-- Witness for C1: three clicks with two distinct fingerprints on a fresh
link give `clicks = 3` and `uniqueClicks = 2`. -/
theorem trackSeq_counts_witness :
    lookupId [("b", freshSample)] "b" = some freshSample ∧
    ¬ freshSample.expires < 100 ∧
    freshSample.clicks = 0 ∧
    freshSample.uniqueClicks = 0 ∧
    freshSample.clickers.getD [] = [] ∧
    (["u", "u", "v"] : List String).length = 3 ∧
    (["u", "u", "v"] : List String).toFinset.card = 2 ∧
    (∃ link', lookupId (trackSeq [("b", freshSample)] "b" 100 ["u", "u", "v"]) "b" =
        some link' ∧
      link'.clicks = 3 ∧ link'.uniqueClicks = 2) :=
  ⟨rfl, by decide, rfl, rfl, rfl, rfl, by decide,
    trackSeq_counts [("b", freshSample)] "b" 100 freshSample ["u", "u", "v"] 3 2
      rfl (by decide) rfl rfl rfl rfl (by decide)⟩

/-! ## Create-path lemmas -/

theorem parseIntNum_of_lt (q : ℚ) (h : q < 10 ^ 21) : parseIntNum q = ⌊q⌋ := by
  unfold parseIntNum
  rw [if_pos h]

theorem parseIntNum_pow21 : parseIntNum (10 ^ 21) = 1 := by
  unfold parseIntNum
  rw [if_neg (by norm_num)]
  have hfloor : ⌊(10 ^ 21 : ℚ)⌋ = (10 ^ 21 : ℤ) := by norm_num
  rw [hfloor]
  have htn : ((10 ^ 21 : ℤ)).toNat = 10 ^ 21 := by rfl
  rw [htn]
  have hlog : Nat.log 10 (10 ^ 21) = 21 := Nat.log_pow (by norm_num) 21
  rw [hlog]
  norm_num

theorem createLink_num_ok (store : Store) (linkId campaign : String) (now : ℤ)
    (q : ℚ) (hq : 1 ≤ q) (hrange : |now + parseIntNum q * 3600000| ≤ maxDateMs) :
    createLink store linkId (JSNum.num q) campaign now =
      Except.ok (setEntry store linkId
        { id := linkId, created := now, expires := now + parseIntNum q * 3600000,
          clicks := 0, uniqueClicks := 0, clickers := some [], campaign := campaign,
          lastAccessed := none }) := by
  have hval : (jsIsNaN (JSNum.num q) || jsLtOne (JSNum.num q)) = false := by
    simp only [jsIsNaN, jsLtOne, Bool.false_or, decide_eq_false_iff_not, not_lt]
    exact hq
  simp only [createLink, hval, Bool.false_eq_true, if_false, jsParseInt]
  rw [if_neg (not_lt.mpr hrange)]

theorem createLink_num_over (store : Store) (linkId campaign : String) (now : ℤ)
    (q : ℚ) (hq : 1 ≤ q) (hrange : maxDateMs < |now + parseIntNum q * 3600000|) :
    createLink store linkId (JSNum.num q) campaign now =
      Except.error CreateError.internalError := by
  have hval : (jsIsNaN (JSNum.num q) || jsLtOne (JSNum.num q)) = false := by
    simp only [jsIsNaN, jsLtOne, Bool.false_or, decide_eq_false_iff_not, not_lt]
    exact hq
  simp only [createLink, hval, Bool.false_eq_true, if_false, jsParseInt]
  rw [if_pos hrange]

theorem createLink_lt_one (store : Store) (linkId campaign : String) (now : ℤ)
    (q : ℚ) (hq : q < 1) :
    createLink store linkId (JSNum.num q) campaign now =
      Except.error CreateError.invalidInput := by
  have hval : (jsIsNaN (JSNum.num q) || jsLtOne (JSNum.num q)) = true := by
    simp only [jsIsNaN, jsLtOne, Bool.false_or, decide_eq_true_eq]
    exact hq
  simp only [createLink, hval, if_true]

/-- A record already stored under the id that a later create call generates. -/
def staleLink : Link :=
  { id := "abc", created := 0, expires := 99, clicks := 5, uniqueClicks := 3,
    clickers := some ["x"], campaign := "old", lastAccessed := some 7 }

/-- The zero-valued record that the colliding create call writes over
`staleLink`. -/
def replacedLink : Link :=
  { id := "abc", created := 100, expires := 100 + 24 * 3600000, clicks := 0,
    uniqueClicks := 0, clickers := some [], campaign := "new", lastAccessed := none }

/-- C4 counterexample: a create call whose generated id already exists does
not fail — there is no DuplicateIdentifier outcome in the handler — and the
unconditional `set` replaces the stored record (its click count drops from 5
to 0). -/
theorem create_duplicate_overwrites_counterexample :
    createLink [("abc", staleLink)] "abc" (JSNum.num 24) "new" 100 =
      Except.ok [("abc", replacedLink)] ∧
    lookupId [("abc", staleLink)] "abc" = some staleLink ∧
    lookupId [("abc", replacedLink)] "abc" = some replacedLink ∧
    staleLink.clicks = 5 ∧ replacedLink.clicks = 0 := by
  have hp : parseIntNum 24 = 24 := by
    rw [parseIntNum_of_lt 24 (by norm_num)]
    norm_num
  have h := createLink_num_ok [("abc", staleLink)] "abc" "new" 100 24 (by norm_num)
    (by rw [hp]; norm_num [maxDateMs])
  rw [hp] at h
  refine ⟨?_, rfl, rfl, rfl, rfl⟩
  rw [h]
  simp [setEntry, replacedLink]

/-- C4 amended: for a create call that passes validation (finite
`expiresInHours` at least 1) and whose computed expiry lies within the
8.64e15 ms Date range, an already-existing generated id does not make the
insert fail: the handler has no DuplicateIdentifier outcome and no retry,
and the unconditional `set` overwrites the existing record with the fresh
zero-valued one. -/
theorem create_duplicate_overwrites (store : Store) (linkId campaign : String)
    (now : ℤ) (q : ℚ) (hq : 1 ≤ q)
    (hrange : |now + parseIntNum q * 3600000| ≤ maxDateMs) (old : Link)
    (hold : lookupId store linkId = some old) :
    ∃ s, createLink store linkId (JSNum.num q) campaign now = Except.ok s ∧
      lookupId s linkId = some
        { id := linkId, created := now, expires := now + parseIntNum q * 3600000,
          clicks := 0, uniqueClicks := 0, clickers := some [], campaign := campaign,
          lastAccessed := none } :=
  ⟨_, createLink_num_ok store linkId campaign now q hq hrange,
    lookupId_setEntry_self _ _ _⟩

/-- Witness for the amended C4 at a concrete collision. -/
theorem create_duplicate_overwrites_witness :
    (1 : ℚ) ≤ 24 ∧
    |(100 : ℤ) + parseIntNum 24 * 3600000| ≤ maxDateMs ∧
    lookupId [("abc", staleLink)] "abc" = some staleLink ∧
    (∃ s, createLink [("abc", staleLink)] "abc" (JSNum.num 24) "new" 100 = Except.ok s ∧
      lookupId s "abc" = some
        { id := "abc", created := 100, expires := 100 + parseIntNum 24 * 3600000,
          clicks := 0, uniqueClicks := 0, clickers := some [], campaign := "new",
          lastAccessed := none }) :=
  ⟨by norm_num,
    by rw [parseIntNum_of_lt 24 (by norm_num)]; norm_num [maxDateMs],
    rfl,
    create_duplicate_overwrites [("abc", staleLink)] "abc" "new" 100 24 (by norm_num)
      (by rw [parseIntNum_of_lt 24 (by norm_num)]; norm_num [maxDateMs]) staleLink rfl⟩

/-- The record actually stored by `Create(expiresInHours = 1.5)` at time 0:
its expiry is one hour out, not one and a half. -/
def truncatedLink : Link :=
  { id := "abc", created := 0, expires := 3600000, clicks := 0, uniqueClicks := 0,
    clickers := some [], campaign := "d", lastAccessed := none }

/-- C6 counterexample: a valid create with `expiresInHours = 1.5` stores
`expires = created + 1 hour` (because `parseInt` truncates the input), not
`created + 1.5 hours` as the claim requires. -/
theorem create_expires_truncation_counterexample :
    createLink [] "abc" (JSNum.num (3 / 2)) "d" 0 = Except.ok [("abc", truncatedLink)] ∧
    lookupId [("abc", truncatedLink)] "abc" = some truncatedLink ∧
    truncatedLink.created = 0 ∧
    truncatedLink.expires = 3600000 ∧
    ¬ ((truncatedLink.expires : ℚ) = (truncatedLink.created : ℚ) + (3 / 2) * 3600000) := by
  have hp : parseIntNum (3 / 2) = 1 := by
    rw [parseIntNum_of_lt (3 / 2) (by norm_num)]
    norm_num
  have h := createLink_num_ok [] "abc" "d" 0 (3 / 2) (by norm_num)
    (by rw [hp]; norm_num [maxDateMs])
  rw [hp] at h
  refine ⟨?_, rfl, rfl, rfl, ?_⟩
  · rw [h]
    simp [setEntry, truncatedLink]
  · simp only [truncatedLink]
    norm_num

/-- C6 amended: a successful create with finite `expiresInHours = h ≥ 1`
stores a record with `created = now`, zero click counters, and
`expires = created + n hours`, where n is what `parseInt` reads from the
default string form of h: the integer part ⌊h⌋ for h below 1e21, and the
single leading digit for h at 1e21 or above (so `Create(1e21)` stores a
one-hour expiry). A create whose computed expiry falls outside the
8.64e15 ms Date range fails with the internal error and stores nothing. -/
theorem create_valid_fields (store : Store) (linkId campaign : String) (now : ℤ)
    (q : ℚ) (hq : 1 ≤ q)
    (hrange : |now + parseIntNum q * 3600000| ≤ maxDateMs) :
    ∃ s, createLink store linkId (JSNum.num q) campaign now = Except.ok s ∧
      ∃ l, lookupId s linkId = some l ∧ l.created = now ∧
        l.expires = l.created + parseIntNum q * 3600000 ∧
        l.clicks = 0 ∧ l.uniqueClicks = 0 :=
  ⟨_, createLink_num_ok store linkId campaign now q hq hrange,
    _, lookupId_setEntry_self _ _ _, rfl, rfl, rfl, rfl⟩

/-- Witness for the amended C6, at `expiresInHours = 2` (decimal regime) and
at `expiresInHours = 1e21` (exponential regime, where `parseInt` reads the
leading digit 1 and the stored expiry is one hour out). -/
theorem create_valid_fields_witness :
    (1 : ℚ) ≤ 2 ∧
    |(50 : ℤ) + parseIntNum 2 * 3600000| ≤ maxDateMs ∧
    (∃ s, createLink [] "k" (JSNum.num 2) "camp" 50 = Except.ok s ∧
      ∃ l, lookupId s "k" = some l ∧ l.created = 50 ∧
        l.expires = l.created + parseIntNum 2 * 3600000 ∧
        l.clicks = 0 ∧ l.uniqueClicks = 0) ∧
    parseIntNum (10 ^ 21) = 1 ∧
    (1 : ℚ) ≤ 10 ^ 21 ∧
    |(0 : ℤ) + parseIntNum (10 ^ 21) * 3600000| ≤ maxDateMs ∧
    (∃ s, createLink [] "z" (JSNum.num (10 ^ 21)) "camp" 0 = Except.ok s ∧
      ∃ l, lookupId s "z" = some l ∧ l.created = 0 ∧
        l.expires = l.created + parseIntNum (10 ^ 21) * 3600000 ∧
        l.clicks = 0 ∧ l.uniqueClicks = 0) :=
  ⟨by norm_num,
    by rw [parseIntNum_of_lt 2 (by norm_num)]; norm_num [maxDateMs],
    create_valid_fields [] "k" "camp" 50 2 (by norm_num)
      (by rw [parseIntNum_of_lt 2 (by norm_num)]; norm_num [maxDateMs]),
    parseIntNum_pow21,
    by norm_num,
    by rw [parseIntNum_pow21]; norm_num [maxDateMs],
    create_valid_fields [] "z" "camp" 0 (10 ^ 21) (by norm_num)
      (by rw [parseIntNum_pow21]; norm_num [maxDateMs])⟩

/-- C5 counterexample: `expiresInHours = Infinity` is not a finite number,
yet it passes the `isNaN(x) || x < 1` validation; the request then fails
with the catch-all internal error (when `toISOString` throws on the invalid
date), not with the InvalidInput rejection the claim requires. -/
theorem create_validation_counterexample :
    createLink [] "abc" JSNum.inf "d" 0 = Except.error CreateError.internalError ∧
    CreateError.internalError ≠ CreateError.invalidInput :=
  ⟨rfl, by decide⟩

/-- C5 amended: a create call rejects `expiresInHours` with InvalidInput
exactly when `isNaN(x) || x < 1` holds — NaN, finite values below 1 and
-Infinity. A finite value at least 1 succeeds exactly when the computed
expiry `now + parseInt(x) hours` lies within the 8.64e15 ms Date range, and
otherwise fails with the catch-all internal error of the invalid-date
serialization; +Infinity, whose `parseInt` is NaN, always fails that way.
Every failing call leaves the store unchanged. -/
theorem create_validation (store : Store) (linkId campaign : String) (now : ℤ) :
    (∀ q : ℚ, 1 ≤ q → |now + parseIntNum q * 3600000| ≤ maxDateMs →
      ∃ s, createLink store linkId (JSNum.num q) campaign now = Except.ok s) ∧
    (∀ q : ℚ, 1 ≤ q → maxDateMs < |now + parseIntNum q * 3600000| →
      createLink store linkId (JSNum.num q) campaign now =
        Except.error CreateError.internalError) ∧
    (∀ q : ℚ, q < 1 →
      createLink store linkId (JSNum.num q) campaign now =
        Except.error CreateError.invalidInput) ∧
    createLink store linkId JSNum.nan campaign now =
      Except.error CreateError.invalidInput ∧
    createLink store linkId JSNum.negInf campaign now =
      Except.error CreateError.invalidInput ∧
    createLink store linkId JSNum.inf campaign now =
      Except.error CreateError.internalError ∧
    (∀ h s, createLink store linkId h campaign now = Except.ok s →
      ∃ q, h = JSNum.num q ∧ 1 ≤ q) ∧
    (∀ h e, createLink store linkId h campaign now = Except.error e →
      applyOp store (Op.create linkId h campaign now) = store) := by
  refine ⟨?_, ?_, ?_, rfl, rfl, rfl, ?_, ?_⟩
  · intro q hq hrange
    exact ⟨_, createLink_num_ok store linkId campaign now q hq hrange⟩
  · intro q hq hrange
    exact createLink_num_over store linkId campaign now q hq hrange
  · intro q hq
    exact createLink_lt_one store linkId campaign now q hq
  · intro h s hok
    cases h with
    | num q =>
        by_cases hq : 1 ≤ q
        · exact ⟨q, rfl, hq⟩
        · rw [createLink_lt_one store linkId campaign now q (by linarith [not_le.mp hq])] at hok
          exact absurd hok (by simp)
    | nan => exact absurd hok (by simp [createLink, jsIsNaN])
    | inf => exact absurd hok (by simp [createLink, jsIsNaN, jsLtOne, jsParseInt])
    | negInf => exact absurd hok (by simp [createLink, jsIsNaN, jsLtOne])
  · intro h e herr
    simp [applyOp, herr]

/-- Witness for the amended C5 at `expiresInHours = 0` (the spec's rejection
scenario) and at the finite over-range value `expiresInHours = 3e9` hours,
whose computed expiry exceeds the Date range and which therefore fails with
the internal error despite passing validation. -/
theorem create_validation_witness :
    ((0 : ℚ) < 1) ∧
    createLink [] "w" (JSNum.num 0) "c" 0 = Except.error CreateError.invalidInput ∧
    (1 : ℚ) ≤ 3 * 10 ^ 9 ∧
    maxDateMs < |(0 : ℤ) + parseIntNum (3 * 10 ^ 9) * 3600000| ∧
    createLink [] "w" (JSNum.num (3 * 10 ^ 9)) "c" 0 =
      Except.error CreateError.internalError :=
  ⟨by norm_num,
    (create_validation [] "w" "c" 0).2.2.1 0 (by norm_num),
    by norm_num,
    by rw [parseIntNum_of_lt (3 * 10 ^ 9) (by norm_num)]; norm_num [maxDateMs],
    (create_validation [] "w" "c" 0).2.1 (3 * 10 ^ 9) (by norm_num)
      (by rw [parseIntNum_of_lt (3 * 10 ^ 9) (by norm_num)]; norm_num [maxDateMs])⟩

/-! ## Click-through rate against the spec formula -/

/-- Modelled from the spec: `clickThroughRate` is exactly `"0%"` when
`clicks == 0`, and otherwise `uniqueClicks / clicks * 100` rounded to two
decimal places (written here with the integer rounding of the scaled value)
followed by a percent sign. -/
def specClickThroughRate (uniqueClicks clicks : ℕ) : String :=
  if clicks = 0 then "0%"
  else
    let n : ℤ := round ((uniqueClicks : ℚ) / (clicks : ℚ) * 100 * 100)
    toString (n / 100) ++ "." ++ (if (n % 100).toNat < 10 then "0" else "") ++
      toString (n % 100).toNat ++ "%"

/-- C8: the `clickThroughRate` field served by the stats handler agrees with
the spec formula: `"0%"` exactly when the stored `clicks` is zero, otherwise
`uniqueClicks / clicks * 100` rounded to two decimals with a percent
suffix. -/
theorem clickThroughRate_spec (store : Store) (linkId : String) (now : ℤ) (link : Link)
    (hf : lookupId store linkId = some link) :
    ∃ view, getStats store linkId now = some view ∧
      view.clickThroughRate = specClickThroughRate link.uniqueClicks link.clicks := by
  simp only [getStats, hf]
  refine ⟨_, rfl, ?_⟩
  by_cases hc : link.clicks = 0
  · simp [hc, specClickThroughRate]
  · have hc' : 0 < link.clicks := Nat.pos_of_ne_zero hc
    rw [if_pos hc']
    rw [specClickThroughRate, if_neg hc]
    rw [toFixed2, round_eq]

/-- Witness for C8: on the sample link with 3 clicks and 2 unique clickers
the handler and the spec formula agree, and the spec scenario value is
`"66.67%"`. -/
theorem clickThroughRate_spec_witness :
    lookupId [("s", expiredSample)] "s" = some expiredSample ∧
    (∃ view, getStats [("s", expiredSample)] "s" 10 = some view ∧
      view.clickThroughRate =
        specClickThroughRate expiredSample.uniqueClicks expiredSample.clicks) ∧
    specClickThroughRate 2 3 = "66.67%" := by
  refine ⟨rfl, clickThroughRate_spec [("s", expiredSample)] "s" 10 expiredSample rfl, ?_⟩
  have hround : round (((2 : ℕ) : ℚ) / ((3 : ℕ) : ℚ) * 100 * 100) = (6667 : ℤ) := by
    rw [round_eq]
    norm_num
  rw [specClickThroughRate, if_neg (by norm_num)]
  rw [hround]
  rfl
